import Mathlib

/-!
Verification development for the cc-backend metric acquisition and
archiving pipeline.  The Go sources (internal/metricdata/metricdata.go,
repository/job.go, config/config.go) are shallowly embedded: Go maps
become association lists (lookup = first match), SQL tables become lists
of row structures, fallible operations return `Except`, and floating
point sample values become `Option Rat` (`none` models the NaN gap
sentinel).
-/

namespace CCBackend

/-! ## Basic schema types (pkg/schema) -/

/-- Job lifecycle state, schema.JobState. -/
inductive JobState
  | running
  | completed
  | failed
  | cancelled
  | stopped
  | timeout
  | preempted
  | outOfMemory
deriving DecidableEq, Repr

/-- schema.MonitoringStatusDisabled -/
def MonitoringStatusDisabled : Nat := 0

/-- schema.MonitoringStatusRunningOrArchiving -/
def MonitoringStatusRunningOrArchiving : Nat := 1

/-- schema.MonitoringStatusArchivingFailed -/
def MonitoringStatusArchivingFailed : Nat := 2

/-- schema.MonitoringStatusArchivingSuccessful -/
def MonitoringStatusArchivingSuccessful : Nat := 3

/-- Measurement scope of a metric, schema.MetricScope. -/
inductive MetricScope
  | node
  | socket
  | memoryDomain
  | core
  | hwthread
  | accelerator
deriving DecidableEq, Repr

/-- schema.MetricStatistics: precomputed min/avg/max of one series. -/
structure MetricStatistics where
  min : Rat
  avg : Rat
  max : Rat
deriving DecidableEq, Repr

/-- schema.StatsSeries: per-timestep min/mean/max across all entities.
`none` entries model timesteps at which no entity has a value. -/
structure StatisticsSeries where
  mins : List (Option Rat)
  means : List (Option Rat)
  maxs : List (Option Rat)
deriving DecidableEq, Repr

/-- schema.Series: one per-entity sample sequence.  A `none` sample models
the NaN gap sentinel. -/
structure Series where
  hostname : String
  statistics : Option MetricStatistics
  data : List (Option Rat)
deriving DecidableEq, Repr

/-- schema.JobMetric: one metric record at one scope. -/
structure JobMetric where
  unit : String
  scope : MetricScope
  timestep : Int
  series : List Series
  statisticsSeries : Option StatisticsSeries
deriving DecidableEq, Repr

/-- schema.JobData: metric name -> scope -> record.  Go maps are embedded
as association lists whose lookup returns the first match. -/
abbrev JobData := List (String × List (MetricScope × JobMetric))

/-- The subset of schema.Job that the embedded operations read. -/
structure Job where
  id : Int
  cluster : String
  state : JobState
  monitoringStatus : Nat
deriving DecidableEq, Repr

/-! ## Association-list helpers (embedding of Go map operations) -/

/-- First-match lookup in an association list (Go `m[k]`). -/
def lookupA {α β : Type} [DecidableEq α] (k : α) : List (α × β) → Option β
  | [] => none
  | (k', v) :: tl => if k' = k then some v else lookupA k tl

/-- Map over the values of an association list, keeping keys. -/
def mapVals {α β γ : Type} (f : β → γ) : List (α × β) → List (α × γ) :=
  List.map (fun p => (p.1, f p.2))

/-- Replace the value at the first occurrence of key `k` (Go `m[k] = f m[k]`). -/
def updateA {α β : Type} [DecidableEq α] (k : α) (f : β → β) : List (α × β) → List (α × β)
  | [] => []
  | (k', v) :: tl => if k' = k then (k', f v) :: tl else (k', v) :: updateA k f tl

/-- Concatenation of the images of a list-valued function. -/
def concatMapL {α β : Type} (f : α → List β) : List α → List β
  | [] => []
  | a :: tl => f a ++ concatMapL f tl

/-- The zero-or-one-entry association list produced by a conditional
Go map insertion `if v, ok := ...; ok { m[a] = v }`. -/
def optEntry {α β : Type} (a : α) (v : Option β) : List (α × β) :=
  match v with
  | some x => [(a, x)]
  | none => []

/-! ## Derived statistics series (prepareJobData helpers)

`schema.JobMetric.AddStatisticsSeries` and `schema.JobData.AddNodeScope`
live in pkg/schema, which is not part of the provided sources; they are
modelled from the spec below. -/

/-- All non-NaN sample values at timestep `t` across the given series. -/
def rawAt (ss : List Series) (t : Nat) : List Rat :=
  ss.filterMap (fun s => (s.data.get? t).bind id)

/-- Minimum of a list of rationals, `none` when empty. -/
def listMin : List Rat → Option Rat
  | [] => none
  | x :: xs => some (xs.foldl min x)

/-- Maximum of a list of rationals, `none` when empty. -/
def listMax : List Rat → Option Rat
  | [] => none
  | x :: xs => some (xs.foldl max x)

/-- Arithmetic mean of a list of rationals, `none` when empty. -/
def listAvg (l : List Rat) : Option Rat :=
  match l with
  | [] => none
  | _ :: _ => some ((l.foldl (· + ·) 0) / (l.length : Rat))

/-- Modelled from the spec: schema.JobMetric.AddStatisticsSeries (pkg/schema,
not included under the provided sources) derives a statistics series whose
per-timestep min/avg/max are taken across all entities' raw series. -/
def statsSeriesOf (ss : List Series) : StatisticsSeries :=
  let n := (ss.map (fun s => s.data.length)).foldr Nat.max 0
  { mins := (List.range n).map (fun t => listMin (rawAt ss t))
    means := (List.range n).map (fun t => listAvg (rawAt ss t))
    maxs := (List.range n).map (fun t => listMax (rawAt ss t)) }

/-- Fan-in threshold `maxSeriesSize` of prepareJobData (metricdata.go). -/
def maxSeriesSize : Nat := 15

/-- The per-record body of prepareJobData's first loop: records that
already carry a statistics series, or have at most `maxSeriesSize` series,
are kept; all others get the derived statistics series attached. -/
def attachStatsMetric (jm : JobMetric) : JobMetric :=
  if jm.statisticsSeries.isSome ∨ jm.series.length ≤ maxSeriesSize then jm
  else { jm with statisticsSeries := some (statsSeriesOf jm.series) }

/-- prepareJobData's first loop over all metrics and scopes. -/
def attachStats (jd : JobData) : JobData :=
  mapVals (mapVals attachStatsMetric) jd

/-- NaN-propagating addition of two optional samples. -/
def addOpt : Option Rat → Option Rat → Option Rat
  | some a, some b => some (a + b)
  | _, _ => none

/-- Element-wise sum of two sample sequences. -/
def sumData (a b : List (Option Rat)) : List (Option Rat) :=
  a.zipWith addOpt b

/-- Distinct hostnames occurring in a list of series. -/
def hostNames (ss : List Series) : List String :=
  (ss.map (fun s => s.hostname)).dedup

/-- Modelled from the spec: the node-scope series synthesized by
schema.JobData.AddNodeScope groups the finer-scope series by hostname and
sums their samples per timestep. -/
def nodeSeries (ss : List Series) : List Series :=
  (hostNames ss).map (fun h =>
    let datas := (ss.filter (fun s => s.hostname == h)).map (fun s => s.data)
    { hostname := h
      statistics := none
      data := match datas with
        | [] => []
        | d :: ds => ds.foldl sumData d })

/-- Modelled from the spec: schema.JobData.AddNodeScope (pkg/schema, not
included under the provided sources): if the metric exists and has no
node-scope record yet, a node-scope view is synthesized from a finer scope
already present; otherwise the data is left unchanged. -/
def addNodeScope (jd : JobData) (metric : String) : JobData :=
  match lookupA metric jd with
  | none => jd
  | some perscope =>
    if (lookupA MetricScope.node perscope).isSome then jd
    else
      match perscope with
      | [] => jd
      | (_, jm) :: _ =>
        updateA metric
          (fun ps => ps ++ [(MetricScope.node,
            { jm with scope := MetricScope.node
                      series := nodeSeries jm.series
                      statisticsSeries := none })]) jd

/-- prepareJobData (metricdata.go): attach derived statistics series to
large records, then synthesize node-scope views for flops_any and mem_bw
when node scope was requested. -/
def prepareJobData (jd : JobData) (scopes : List MetricScope) : JobData :=
  let jd1 := attachStats jd
  if MetricScope.node ∈ scopes then
    addNodeScope (addNodeScope jd1 "flops_any") "mem_bw"
  else jd1

/-! ## Archive-path trimming (metricdata.go, `Avoid sending unrequested
data to the client`) -/

/-- The `subset` map built over the requested scopes on the archive path. -/
def scopeSubset (perscope : List (MetricScope × JobMetric)) (scopes : List MetricScope) :
    List (MetricScope × JobMetric) :=
  scopes.foldl (fun sub scope =>
    match lookupA scope perscope with
    | some jm => sub ++ [(scope, jm)]
    | none => sub) []

/-- The per-metric body of the archive-path trimming: only when the
archived metric has more than one scope is the requested-scope subset
computed, and only a non-empty subset replaces the full per-scope map. -/
def trimPerScope (perscope : List (MetricScope × JobMetric)) (scopes : List MetricScope) :
    List (MetricScope × JobMetric) :=
  if 1 < perscope.length then
    let subset := scopeSubset perscope scopes
    if 0 < subset.length then subset else perscope
  else perscope

/-- The archive-path trimming loop of LoadData. -/
def trimArchiveData (jd : JobData) (metrics : Option (List String))
    (scopes : Option (List MetricScope)) : JobData :=
  if metrics.isSome ∨ scopes.isSome then
    let ms := match metrics with
      | some l => l
      | none => jd.map Prod.fst
    ms.foldl (fun res metric =>
      match lookupA metric jd with
      | some perscope => res ++ [(metric, trimPerScope perscope (scopes.getD []))]
      | none => res) []
  else jd

/-! ## LoadData (metricdata.go) -/

/-- Which store a LoadData invocation read from. -/
inductive Source
  | live
  | archive
deriving DecidableEq, Repr

/-- The environment of the metric data service: the `useArchive` flag, the
per-cluster adapter registry `metricDataRepos`, the per-cluster metric
configuration, and loadFromArchive. -/
structure Env where
  useArchive : Bool
  repos : List (String × (Job → List String → List MetricScope → JobData × Option String))
  clusterMetricNames : String → List String
  archiveLoad : Job → Except String JobData

/-- Observable outcome of one LoadData call: the value or error handed to
the caller, the store consulted, and the log lines emitted. -/
structure LoadOutcome where
  result : Except String JobData
  source : Source
  logs : List String

/-- LoadData (metricdata.go): route to the live adapter or the archive,
default absent metric/scope lists, tolerate partial adapter failures, trim
archived data, post-process.  The cache wrapper around this computation is
concurrency machinery and is not modelled; this is the cache-miss
computation whose value every caller observes. -/
def loadData (env : Env) (job : Job) (metrics : Option (List String))
    (scopes : Option (List MetricScope)) : LoadOutcome :=
  if job.state = JobState.running ∨
      job.monitoringStatus = MonitoringStatusRunningOrArchiving ∨
      env.useArchive = false then
    match lookupA job.cluster env.repos with
    | none =>
      { result := Except.error ("no metric data repository configured for " ++ job.cluster)
        source := Source.live
        logs := [] }
    | some repo =>
      let scopes1 := scopes.getD [MetricScope.node]
      let metrics1 := metrics.getD (env.clusterMetricNames job.cluster)
      let out := repo job metrics1 scopes1
      match out.2 with
      | some e =>
        if out.1.length ≠ 0 then
          { result := Except.ok (prepareJobData out.1 scopes1)
            source := Source.live
            logs := ["partial error: " ++ e] }
        else
          { result := Except.error e, source := Source.live, logs := [] }
      | none =>
        { result := Except.ok (prepareJobData out.1 scopes1)
          source := Source.live
          logs := [] }
  else
    match env.archiveLoad job with
    | Except.error e => { result := Except.error e, source := Source.archive, logs := [] }
    | Except.ok jd =>
      let jd1 := trimArchiveData jd metrics scopes
      { result := Except.ok (prepareJobData jd1 (scopes.getD []))
        source := Source.archive
        logs := [] }

/-! ## Job repository (repository/job.go) -/

/-- One row of the `job` table (the columns the embedded operations touch). -/
structure JobRow where
  id : Int
  jobId : Int
  cluster : String
  startTime : Int
  jobState : JobState
  duration : Int
  monitoringStatus : Nat
  flopsAnyAvg : Rat
  memUsedMax : Rat
  memBwAvg : Rat
  loadAvg : Rat
  netBwAvg : Rat
  fileBwAvg : Rat
deriving DecidableEq, Repr

/-- Database-level errors the embedded repository can surface. -/
inductive DBError
  | notFound
deriving DecidableEq, Repr

/-- Stop (repository/job.go): one SQL UPDATE of job_state, duration and
monitoring_status filtered on `job.id = ?`.  An UPDATE matching no row is
not an error, so the result is always `ok`. -/
def Stop (db : List JobRow) (jobId : Int) (duration : Int) (state : JobState)
    (monitoringStatus : Nat) : List JobRow × Except DBError Unit :=
  (db.map (fun r =>
    if r.id = jobId then
      { r with jobState := state, duration := duration, monitoringStatus := monitoringStatus }
    else r), Except.ok ())

/-- schema.JobStatistics: the per-metric aggregate handed to Archive. -/
structure JobStatistics where
  min : Rat
  avg : Rat
  max : Rat
deriving DecidableEq, Repr

/-- The switch statement inside Archive: the closed metric-name-to-column
mapping.  Names outside the six cases fall through and change nothing. -/
def applyStat (r : JobRow) (metric : String) (s : JobStatistics) : JobRow :=
  if metric = "flops_any" then { r with flopsAnyAvg := s.avg }
  else if metric = "mem_used" then { r with memUsedMax := s.max }
  else if metric = "mem_bw" then { r with memBwAvg := s.avg }
  else if metric = "load" then { r with loadAvg := s.avg }
  else if metric = "net_bw" then { r with netBwAvg := s.avg }
  else if metric = "file_bw" then { r with fileBwAvg := s.avg }
  else r

/-- The row transformation performed by Archive's UPDATE statement. -/
def archiveRow (jobId : Int) (monitoringStatus : Nat)
    (metricStats : List (String × JobStatistics)) (r : JobRow) : JobRow :=
  if r.id = jobId then
    metricStats.foldl (fun r p => applyStat r p.1 p.2)
      { r with monitoringStatus := monitoringStatus }
  else r

/-- Archive (repository/job.go): set monitoring_status and the mapped
aggregate columns for the row with the given database id. -/
def Archive (db : List JobRow) (jobId : Int) (monitoringStatus : Nat)
    (metricStats : List (String × JobStatistics)) : List JobRow × Except DBError Unit :=
  (db.map (archiveRow jobId monitoringStatus metricStats), Except.ok ())

/-- The sqlite surrogate-id assignment: one more than the largest id. -/
def freshRowId (ids : List Int) : Int :=
  ids.foldr max 0 + 1

/-- The fields of a start request that the guard and the insert consume. -/
structure JobMeta where
  jobId : Int
  cluster : String
  startTime : Int
deriving DecidableEq, Repr

/-- Start (repository/job.go): plain INSERT of a new job row, returning
the database-assigned surrogate id.  No duplicate check happens here. -/
def Start (db : List JobRow) (row : JobRow) : List JobRow × Int :=
  let i := freshRowId (db.map (fun r => r.id))
  (db ++ [{ row with id := i }], i)

/-- Errors of the start request path. -/
inductive ApiError
  | conflict422
deriving DecidableEq, Repr

/-- The new row built from a start request: state running, duration 0. -/
def newJobRow (m : JobMeta) : JobRow :=
  { id := 0
    jobId := m.jobId
    cluster := m.cluster
    startTime := m.startTime
    jobState := JobState.running
    duration := 0
    monitoringStatus := MonitoringStatusRunningOrArchiving
    flopsAnyAvg := 0
    memUsedMax := 0
    memBwAvg := 0
    loadAvg := 0
    netBwAvg := 0
    fileBwAvg := 0 }

/-- Modelled from the spec: the duplicate-start condition — an existing
unfinished job (state running) shares (job id, cluster) with the request
and its start time lies within the guard window `w`. -/
def duplicateStart (w : Nat) (m : JobMeta) (r : JobRow) : Prop :=
  r.jobId = m.jobId ∧ r.cluster = m.cluster ∧ r.jobState = JobState.running ∧
    (m.startTime - r.startTime).natAbs < w

instance (w : Nat) (m : JobMeta) (r : JobRow) : Decidable (duplicateStart w m r) := by
  unfold duplicateStart
  infer_instance

/-- Modelled from the spec: the start operation's anti-duplicate guard
lives in the HTTP start handler (internal/api), which is not included
under the provided sources.  Per spec section 4.1, the request is rejected
as a 422-equivalent conflict when an existing unfinished job shares
(job id, cluster) and its start time lies within a small guard window `w`
of the requested start time; otherwise a new row in state running is
inserted through the repository's Start. -/
def startJobHandler (w : Nat) (db : List JobRow) (m : JobMeta) :
    List JobRow × Except ApiError Int :=
  if ∃ r ∈ db, duplicateStart w m r then
    (db, Except.error ApiError.conflict422)
  else
    let out := Start db (newJobRow m)
    (out.1, Except.ok out.2)

/-- The ids of all rows of the job table. -/
def jobIds (db : List JobRow) : List Int :=
  db.map (fun r => r.id)

/-- The row an accepted start request adds to the table. -/
def startedRow (m : JobMeta) (db : List JobRow) : JobRow :=
  { newJobRow m with id := freshRowId (jobIds db) }

/-! ## Tags (repository/job.go) -/

/-- The `tag` and `jobtag` tables: (id, tag_type, tag_name) rows and
(job_id, tag_id) association rows. -/
structure TagDB where
  tags : List (Int × String × String)
  jobtags : List (Int × Int)
deriving DecidableEq, Repr

/-- SQL constraint violations the tag operations can hit. -/
inductive SqlError
  | uniqueViolation
  | pkViolation
deriving DecidableEq, Repr

/-- TagId (repository/job.go): id of the tag with the given type and name,
`none` when no such row exists. -/
def TagId (db : TagDB) (tagType tagName : String) : Option Int :=
  (db.tags.find? (fun t => t.2.1 == tagType && t.2.2 == tagName)).map (fun t => t.1)

/-- CreateTag (repository/job.go): INSERT a new tag row; the UNIQUE
constraint on (tag_type, tag_name) rejects duplicates. -/
def CreateTag (db : TagDB) (tagType tagName : String) : TagDB × Except SqlError Int :=
  if db.tags.any (fun t => t.2.1 == tagType && t.2.2 == tagName) then
    (db, Except.error SqlError.uniqueViolation)
  else
    let i := freshRowId (db.tags.map (fun t => t.1))
    ({ db with tags := db.tags ++ [(i, tagType, tagName)] }, Except.ok i)

/-- AddTag (repository/job.go): INSERT into jobtag; the primary key on
(job_id, tag_id) rejects duplicates. -/
def AddTag (db : TagDB) (jobId tagId : Int) : TagDB × Except SqlError Unit :=
  if (jobId, tagId) ∈ db.jobtags then (db, Except.error SqlError.pkViolation)
  else ({ db with jobtags := db.jobtags ++ [(jobId, tagId)] }, Except.ok ())

/-- Maps an Except to the Go-style optional error return. -/
def errOf {α : Type} : Except SqlError α → Option SqlError
  | Except.ok _ => none
  | Except.error e => some e

/-- AddTagOrCreate (repository/job.go): look the tag up, create it only
when absent, then associate it with the job.  Like the Go original it
returns the tag id together with the (possible) error of the final
association insert. -/
def AddTagOrCreate (db : TagDB) (jobId : Int) (tagType tagName : String) :
    TagDB × Int × Option SqlError :=
  match TagId db tagType tagName with
  | some tid =>
    let out := AddTag db jobId tid
    (out.1, tid, errOf out.2)
  | none =>
    match CreateTag db tagType tagName with
    | (db1, Except.ok tid) =>
      let out := AddTag db1 jobId tid
      (out.1, tid, errOf out.2)
    | (db1, Except.error e) => (db1, 0, some e)

/-- Number of tag rows with the given type and name. -/
def countTag (db : TagDB) (tagType tagName : String) : Nat :=
  db.tags.countP (fun t => t.2.1 == tagType && t.2.2 == tagName)

/-! ## Bulk import (repository/job.go, InitDB) -/

/-- The payload of one successfully parsed and sanity-checked meta.json:
the job fields plus its (type, name) tags. -/
structure ImportedJob where
  jobId : Int
  cluster : String
  startTime : Int
  tags : List (String × String)
deriving DecidableEq, Repr

/-- Outcome of attempting to load one job directory of the archive walk:
either the parsed job or a failure (unreadable/unparsable meta.json,
failed sanity check or insert). -/
inductive DirOutcome
  | ok (j : ImportedJob)
  | failed (msg : String)
deriving DecidableEq, Repr

/-- Whether a directory outcome is a successful parse. -/
def DirOutcome.isOk : DirOutcome → Bool
  | DirOutcome.ok _ => true
  | DirOutcome.failed _ => false

/-- Observable database-side events of the bulk import. -/
inductive DBEvent
  | execSchema
  | beginTx
  | commitTx
  | insertJob (j : ImportedJob)
  | logError (msg : String)
  | createIndexes
deriving DecidableEq, Repr

/-- Whether an event is a job insertion. -/
def DBEvent.isInsert : DBEvent → Bool
  | DBEvent.insertJob _ => true
  | _ => false

/-- Whether an event is a logged error. -/
def DBEvent.isLogError : DBEvent → Bool
  | DBEvent.logError _ => true
  | _ => false

/-- The three tables InitDB touches. -/
structure ImportDB where
  jobs : List (Int × ImportedJob)
  tags : List (Int × String × String)
  jobtags : List (Int × Int)
deriving DecidableEq, Repr

/-- The freshly created empty tables. -/
def emptyImportDB : ImportDB := { jobs := [], tags := [], jobtags := [] }

/-- JobsDBSchema (repository/job.go): DROP TABLE IF EXISTS jobtag, job and
tag, then CREATE them afresh — whatever was stored, the result is the
empty tables. -/
def execJobsDBSchema (_db : ImportDB) : ImportDB := emptyImportDB

/-- State threaded through the archive walk: the insert counter `i`, the
growing tables, the tag-name cache and the event trace. -/
structure WalkState where
  i : Nat
  db : ImportDB
  tagCache : List (String × Int)
  evs : List DBEvent
deriving Repr

/-- loadJob (repository/job.go) on a successfully parsed meta.json: insert
the job row, then for each of its tags reuse the cached tag id or insert a
new tag row, and link job and tag in jobtag. -/
def loadJobModel (st : WalkState) (j : ImportedJob) : WalkState :=
  let jid := freshRowId (st.db.jobs.map (fun p => p.1))
  let db0 := { st.db with jobs := st.db.jobs ++ [(jid, j)] }
  let out := j.tags.foldl (fun (acc : ImportDB × List (String × Int)) t =>
    let tagstr := t.2 ++ ":" ++ t.1
    match lookupA tagstr acc.2 with
    | some tid =>
      ({ acc.1 with jobtags := acc.1.jobtags ++ [(jid, tid)] }, acc.2)
    | none =>
      let tid := freshRowId (acc.1.tags.map (fun p => p.1))
      ({ acc.1 with tags := acc.1.tags ++ [(tid, t.1, t.2)]
                    jobtags := acc.1.jobtags ++ [(jid, tid)] },
       acc.2 ++ [(tagstr, tid)])) (db0, st.tagCache)
  { i := st.i + 1
    db := out.1
    tagCache := out.2
    evs := st.evs ++ [DBEvent.insertJob j] }

/-- handleDirectory (repository/job.go, InitDB): every 100 inserts commit
the open transaction and begin a new one; then load the directory's job —
a failure leaves the counter and the tables untouched. -/
def handleDirectory (st : WalkState) (d : DirOutcome) : WalkState :=
  let st1 := if st.i % 100 = 0 then
      { st with evs := st.evs ++ [DBEvent.commitTx, DBEvent.beginTx] }
    else st
  match d with
  | DirOutcome.ok j => loadJobModel st1 j
  | DirOutcome.failed m => { st1 with evs := st1.evs ++ [DBEvent.logError m] }

/-- InitDB (repository/job.go): execute JobsDBSchema (drop and recreate
the tables), then walk the archive.  `none` models a failing top-level
ReadDir; `some dirs` is the sequence of job directories the walk visits in
order, each already classified as parsing or failing.  After the walk the
final transaction is committed and the indexes of JobsDbIndexes are
created. -/
def InitDB (db : ImportDB) (archive : Option (List DirOutcome)) :
    ImportDB × List DBEvent × Except String Nat :=
  let db0 := execJobsDBSchema db
  match archive with
  | none => (db0, [DBEvent.execSchema], Except.error "cannot read archive directory")
  | some dirs =>
    let st0 : WalkState :=
      { i := 0, db := db0, tagCache := [], evs := [DBEvent.execSchema, DBEvent.beginTx] }
    let st := dirs.foldl handleDirectory st0
    (st.db, st.evs ++ [DBEvent.commitTx, DBEvent.createIndexes], Except.ok st.i)

/-- The walk state at the start of InitDB's archive traversal: freshly
recreated tables, counter 0, empty tag cache, initial transaction open. -/
def walkInit : WalkState :=
  { i := 0, db := emptyImportDB, tagCache := [],
    evs := [DBEvent.execSchema, DBEvent.beginTx] }

/-! ## Concrete instances used by witnesses and counterexamples -/

/-- A small node-scope metric record. -/
def jmW : JobMetric :=
  { unit := "load", scope := MetricScope.node, timestep := 60, series := [],
    statisticsSeries := none }

/-- A one-metric JobData as a live adapter would return it. -/
def jdW : JobData := [("load_one", [(MetricScope.node, jmW)])]

/-- A test adapter returning partial data together with an error. -/
def repoW : Job → List String → List MetricScope → JobData × Option String :=
  fun _ _ _ => (jdW, some "adapter timeout")

/-- A test adapter returning no data together with an error. -/
def repoWE : Job → List String → List MetricScope → JobData × Option String :=
  fun _ _ _ => ([], some "adapter down")

/-- An environment with one registered cluster adapter. -/
def envW : Env :=
  { useArchive := true
    repos := [("testcluster", repoW)]
    clusterMetricNames := fun _ => ["load_one"]
    archiveLoad := fun _ => Except.error "no archive entry" }

/-- A running job on the test cluster. -/
def jobW : Job :=
  { id := 1, cluster := "testcluster", state := JobState.running,
    monitoringStatus := MonitoringStatusRunningOrArchiving }

/-- A job row with database id 7. -/
def rowW : JobRow :=
  { id := 7, jobId := 123, cluster := "testcluster", startTime := 1000,
    jobState := JobState.running, duration := 0,
    monitoringStatus := MonitoringStatusRunningOrArchiving,
    flopsAnyAvg := 0, memUsedMax := 0, memBwAvg := 0, loadAvg := 0,
    netBwAvg := 0, fileBwAvg := 0 }

/-- A socket-scope metric record, as archived data may contain it. -/
def jmC4 : JobMetric :=
  { unit := "load", scope := MetricScope.socket, timestep := 60, series := [],
    statisticsSeries := none }

/-- Archived data whose metric `m` exists only at socket scope. -/
def jdC4 : JobData := [("m", [(MetricScope.socket, jmC4)])]

/-- An archived per-scope map with two scopes. -/
def psW4 : List (MetricScope × JobMetric) :=
  [(MetricScope.node, jmW), (MetricScope.socket, jmC4)]

/-- Archived data whose metric `m` exists at node and socket scope. -/
def jdW4 : JobData := [("m", psW4)]

/-- A start request for external job 123. -/
def mW1 : JobMeta := { jobId := 123, cluster := "testcluster", startTime := 123456789 }

/-- The same (job id, cluster) one second later — inside the guard window. -/
def mW2 : JobMeta := { jobId := 123, cluster := "testcluster", startTime := 123456790 }

/-- The same (job id, cluster) 101 seconds later — clearly apart. -/
def mW3 : JobMeta := { jobId := 123, cluster := "testcluster", startTime := 123456890 }

/-- A per-metric statistics map containing two mapped metric names and one
name outside the closed column mapping. -/
def statsW : List (String × JobStatistics) :=
  [("flops_any", { min := 0, avg := 10, max := 20 }),
   ("mem_used", { min := 1, avg := 2, max := 3 }),
   ("cpu_power", { min := 4, avg := 5, max := 6 })]

/-- A one-sample series. -/
def seriesN : Series := { hostname := "h", statistics := none, data := [some 1] }

/-- A metric record with 16 series and no statistics series. -/
def jm16 : JobMetric :=
  { unit := "flops", scope := MetricScope.node, timestep := 60,
    series := List.replicate 16 seriesN, statisticsSeries := none }

/-- JobData holding the 16-series record at node scope. -/
def jd16 : JobData := [("load_one", [(MetricScope.node, jm16)])]

/-! ## Association-list lemmas -/

theorem lookupA_mapVals {α β γ : Type} [DecidableEq α] (f : β → γ) (k : α)
    (l : List (α × β)) : lookupA k (mapVals f l) = (lookupA k l).map f := by
  induction l with
  | nil => rfl
  | cons hd tl ih =>
    obtain ⟨k', v⟩ := hd
    by_cases h : k' = k
    · simp [mapVals, lookupA, h]
    · simpa [mapVals, lookupA, h] using ih

theorem lookupA_append_some {α β : Type} [DecidableEq α] {k : α} {v : β}
    {l l' : List (α × β)} (h : lookupA k l = some v) :
    lookupA k (l ++ l') = some v := by
  induction l with
  | nil => simp [lookupA] at h
  | cons hd tl ih =>
    obtain ⟨k', w⟩ := hd
    by_cases hk : k' = k <;> simp [lookupA, hk] at h ⊢
    · exact h
    · exact ih h

theorem lookupA_updateA_ne {α β : Type} [DecidableEq α] {k k' : α} (f : β → β)
    (l : List (α × β)) (h : k ≠ k') :
    lookupA k (updateA k' f l) = lookupA k l := by
  induction l with
  | nil => rfl
  | cons hd tl ih =>
    obtain ⟨k0, v⟩ := hd
    by_cases h0 : k0 = k'
    · subst h0
      simp [updateA, lookupA, Ne.symm h]
    · by_cases h1 : k0 = k
      · subst h1
        simp [updateA, lookupA, h, h0]
      · simp [updateA, lookupA, h0, h1, ih]

theorem lookupA_updateA_eq {α β : Type} [DecidableEq α] (k : α) (f : β → β)
    (l : List (α × β)) :
    lookupA k (updateA k f l) = (lookupA k l).map f := by
  induction l with
  | nil => rfl
  | cons hd tl ih =>
    obtain ⟨k0, v⟩ := hd
    by_cases h0 : k0 = k <;> simp [updateA, lookupA, h0, ih]

/-! ## LoadData routing (Claim C1) -/

theorem loadData_source (env : Env) (job : Job) (metrics : Option (List String))
    (scopes : Option (List MetricScope)) :
    (loadData env job metrics scopes).source =
      if job.state = JobState.running ∨
          job.monitoringStatus = MonitoringStatusRunningOrArchiving ∨
          env.useArchive = false
      then Source.live else Source.archive := by
  unfold loadData
  by_cases h : job.state = JobState.running ∨
      job.monitoringStatus = MonitoringStatusRunningOrArchiving ∨
      env.useArchive = false
  · simp only [if_pos h]
    cases lookupA job.cluster env.repos with
    | none => rfl
    | some repo =>
      dsimp only
      cases (repo job (metrics.getD (env.clusterMetricNames job.cluster))
          (scopes.getD [MetricScope.node])).2 with
      | none => rfl
      | some e =>
        by_cases hl : (repo job (metrics.getD (env.clusterMetricNames job.cluster))
            (scopes.getD [MetricScope.node])).1.length ≠ 0 <;>
          simp [hl]
  · simp only [if_neg h]
    cases env.archiveLoad job with
    | ok jd => rfl
    | error e => rfl

/-- Claim C1: LoadData consults the live metric source adapter registered
for the job's cluster exactly when the job state is running, or the
monitoring status is running-or-archiving, or archiving is globally
disabled (useArchive = false); in every other case it consults the archive
store. -/
theorem loadData_routing (env : Env) (job : Job) (metrics : Option (List String))
    (scopes : Option (List MetricScope)) :
    ((loadData env job metrics scopes).source = Source.live ↔
      (job.state = JobState.running ∨
        job.monitoringStatus = MonitoringStatusRunningOrArchiving ∨
        env.useArchive = false)) ∧
    ((loadData env job metrics scopes).source = Source.archive ↔
      ¬(job.state = JobState.running ∨
        job.monitoringStatus = MonitoringStatusRunningOrArchiving ∨
        env.useArchive = false)) := by
  have hs := loadData_source env job metrics scopes
  by_cases h : job.state = JobState.running ∨
      job.monitoringStatus = MonitoringStatusRunningOrArchiving ∨
      env.useArchive = false <;>
    simp [h] at hs <;> simp [hs, h]

/-! ## Partial-failure tolerance on the live path (Claim C3) -/

/-- Claim C3: on the live path, an adapter error accompanied by non-empty
data is only logged and the (post-processed) partial data is returned
without error; an adapter error with empty data is returned to the caller
and produces no data and no log line. -/
theorem loadData_partial_failure (env : Env) (job : Job)
    (metrics : Option (List String)) (scopes : Option (List MetricScope))
    (repo : Job → List String → List MetricScope → JobData × Option String)
    (jd : JobData) (e : String)
    (hcond : job.state = JobState.running ∨
      job.monitoringStatus = MonitoringStatusRunningOrArchiving ∨
      env.useArchive = false)
    (hrepo : lookupA job.cluster env.repos = some repo)
    (hcall : repo job (metrics.getD (env.clusterMetricNames job.cluster))
      (scopes.getD [MetricScope.node]) = (jd, some e)) :
    (jd ≠ [] →
      (loadData env job metrics scopes).result =
        Except.ok (prepareJobData jd (scopes.getD [MetricScope.node])) ∧
      (loadData env job metrics scopes).logs = ["partial error: " ++ e]) ∧
    (jd = [] →
      (loadData env job metrics scopes).result = Except.error e ∧
      (loadData env job metrics scopes).logs = []) := by
  unfold loadData
  simp only [if_pos hcond, hrepo]
  constructor
  · intro hne
    simp [hcall, hne]
  · intro hnil
    subst hnil
    simp [hcall]

/-- Witness for Claim C3: a concrete running job whose adapter returns
partial data plus an error; the partial data is returned and the error
logged. -/
theorem loadData_partial_failure_witness :
    (loadData envW jobW (some ["load_one"]) (some [MetricScope.node])).result =
      Except.ok (prepareJobData jdW [MetricScope.node]) ∧
    (loadData envW jobW (some ["load_one"]) (some [MetricScope.node])).logs =
      ["partial error: " ++ "adapter timeout"] :=
  (loadData_partial_failure envW jobW (some ["load_one"]) (some [MetricScope.node])
    repoW jdW "adapter timeout" (Or.inl rfl) rfl rfl).1 (by decide)

/-! ## Stop (Claim C2) -/

/-- Claim C2, counterexample: Stop applied to a table that has no row with
the requested database id returns success (a zero-row SQL UPDATE), not a
not-found error — refuting the claim that Stop fails with a not-found
error for unknown ids. -/
theorem stop_counterexample :
    (¬ ∃ r ∈ [rowW], r.id = (1 : Int)) ∧
    Stop [rowW] 1 100 JobState.completed MonitoringStatusArchivingSuccessful =
      ([rowW], Except.ok ()) := by
  constructor
  · decide
  · rfl

/-- Claim C2 (amended): Stop always returns success; when no row has the
given database id the table is unchanged (a zero-row update, not a
not-found error), and when a row has the id its job_state, duration and
monitoring_status are updated. -/
theorem stop_updates (db : List JobRow) (jobId : Int) (duration : Int)
    (state : JobState) (monitoringStatus : Nat) :
    (Stop db jobId duration state monitoringStatus).2 = Except.ok () ∧
    ((∀ r ∈ db, r.id ≠ jobId) →
      (Stop db jobId duration state monitoringStatus).1 = db) ∧
    (∀ r ∈ db, r.id = jobId →
      { r with jobState := state, duration := duration,
               monitoringStatus := monitoringStatus } ∈
        (Stop db jobId duration state monitoringStatus).1) := by
  refine ⟨rfl, ?_, ?_⟩
  · intro h
    induction db with
    | nil => rfl
    | cons hd tl ih =>
      have h1 : hd.id ≠ jobId := h hd (List.mem_cons_self hd tl)
      have h2 := ih (fun r hr => h r (List.mem_cons_of_mem hd hr))
      simpa [Stop, h1] using h2
  · intro r hr hid
    have hmem := List.mem_map_of_mem (fun r : JobRow =>
      if r.id = jobId then
        { r with jobState := state, duration := duration,
                 monitoringStatus := monitoringStatus }
      else r) hr
    simpa [Stop, hid] using hmem

/-- Witness for Claim C2 (amended): a concrete one-row table; stopping an
absent id changes nothing and succeeds, stopping the present id rewrites
the row. -/
theorem stop_updates_witness :
    (Stop [rowW] 7 1000 JobState.completed MonitoringStatusArchivingSuccessful).2 =
      Except.ok () ∧
    (Stop [rowW] 1 1000 JobState.completed MonitoringStatusArchivingSuccessful).1 =
      [rowW] ∧
    { rowW with jobState := JobState.completed, duration := 1000,
                monitoringStatus := MonitoringStatusArchivingSuccessful } ∈
      (Stop [rowW] 7 1000 JobState.completed MonitoringStatusArchivingSuccessful).1 :=
  ⟨(stop_updates [rowW] 7 1000 JobState.completed MonitoringStatusArchivingSuccessful).1,
   (stop_updates [rowW] 1 1000 JobState.completed MonitoringStatusArchivingSuccessful).2.1
     (by decide),
   (stop_updates [rowW] 7 1000 JobState.completed MonitoringStatusArchivingSuccessful).2.2
     rowW (List.mem_singleton_self rowW) rfl⟩

/-! ## Archive-path trimming (Claim C4) -/

theorem foldl_congrF {α β : Type} {f g : β → α → β} (h : ∀ b a, f b a = g b a)
    (l : List α) (b : β) : l.foldl f b = l.foldl g b := by
  induction l generalizing b with
  | nil => rfl
  | cons a tl ih => simp only [List.foldl_cons, h, ih]

theorem foldl_append_concatMap {α β : Type} (f : α → List β) (l : List α)
    (acc : List β) :
    l.foldl (fun res a => res ++ f a) acc = acc ++ concatMapL f l := by
  induction l generalizing acc with
  | nil => simp [concatMapL]
  | cons a tl ih => simp [concatMapL, ih, List.append_assoc]

theorem optEntry_none {α β : Type} (a : α) : optEntry a (none : Option β) = [] := rfl

theorem optEntry_some {α β : Type} (a : α) (x : β) :
    optEntry a (some x) = [(a, x)] := rfl

theorem lookupA_concatMap_gen {α β : Type} [DecidableEq α] (g : α → Option β)
    (l : List α) (k : α) :
    lookupA k (concatMapL (fun a => optEntry a (g a)) l) =
      if k ∈ l then g k else none := by
  induction l with
  | nil => simp [concatMapL, lookupA]
  | cons a tl ih =>
    by_cases ha : a = k
    · subst ha
      cases hga : g a with
      | some v => simp [concatMapL, hga, optEntry_some, lookupA, ih]
      | none => simp [concatMapL, hga, optEntry_none, lookupA, ih]
    · have ha' : ¬k = a := fun h => ha h.symm
      cases hga : g a with
      | some v => simp [concatMapL, hga, optEntry_some, lookupA, ha, ha', ih]
      | none => simp [concatMapL, hga, optEntry_none, lookupA, ha, ha', ih]

theorem scopeSubset_lookup (perscope : List (MetricScope × JobMetric))
    (scopes : List MetricScope) (sc : MetricScope) :
    lookupA sc (scopeSubset perscope scopes) =
      if sc ∈ scopes then lookupA sc perscope else none := by
  have h1 : scopeSubset perscope scopes =
      concatMapL (fun scope => optEntry scope (lookupA scope perscope)) scopes := by
    unfold scopeSubset
    rw [foldl_congrF (g := fun res scope =>
        res ++ optEntry scope (lookupA scope perscope)) ?_, foldl_append_concatMap]
    · simp
    · intro res scope
      cases h : lookupA scope perscope <;> simp [optEntry, h]
  rw [h1, lookupA_concatMap_gen (fun scope => lookupA scope perscope) scopes sc]

theorem trimPerScope_lookup_sub (perscope : List (MetricScope × JobMetric))
    (scopes : List MetricScope) (sc : MetricScope) (jm : JobMetric)
    (h : lookupA sc (trimPerScope perscope scopes) = some jm) :
    lookupA sc perscope = some jm := by
  unfold trimPerScope at h
  by_cases h1 : 1 < perscope.length
  · simp only [if_pos h1] at h
    by_cases h2 : 0 < (scopeSubset perscope scopes).length
    · simp only [if_pos h2] at h
      rw [scopeSubset_lookup] at h
      by_cases h3 : sc ∈ scopes
      · simpa [h3] using h
      · simp [h3] at h
    · simpa [if_neg h2] using h
  · simpa [if_neg h1] using h

theorem trimArchiveData_lookup (jd : JobData) (ms : List String)
    (scopes : List MetricScope) (m : String) :
    lookupA m (trimArchiveData jd (some ms) (some scopes)) =
      if m ∈ ms then (lookupA m jd).map (fun ps => trimPerScope ps scopes)
      else none := by
  have h1 : trimArchiveData jd (some ms) (some scopes) =
      concatMapL (fun metric =>
        optEntry metric ((lookupA metric jd).map (fun ps => trimPerScope ps scopes))) ms := by
    unfold trimArchiveData
    simp only [Option.isSome_some, Option.getD_some, true_or, if_pos]
    rw [foldl_congrF (g := fun res metric => res ++
        optEntry metric ((lookupA metric jd).map (fun ps => trimPerScope ps scopes))) ?_,
      foldl_append_concatMap]
    · simp
    · intro res metric
      cases h : lookupA metric jd <;> simp [optEntry, h]
  rw [h1, lookupA_concatMap_gen]

/-- Claim C4, counterexample: archived data holding metric `m` only at
socket scope, requested with the non-nil lists metrics = [m] and
scopes = [node]: the trimming returns the socket-scope record untouched,
although socket was not requested — the result does not consist of exactly
the requested scopes present in the archived data. -/
theorem trim_counterexample :
    (lookupA "m" (trimArchiveData jdC4 (some ["m"]) (some [MetricScope.node]))).bind
      (lookupA MetricScope.socket) = some jmC4 ∧
    MetricScope.socket ∉ [MetricScope.node] := by
  constructor
  · rfl
  · decide

/-- Claim C4 (amended): for non-nil requested metric and scope lists, the
trimming step returns exactly the requested metrics present in the
archived data, each mapped to its trimmed per-scope map; that map consists
of exactly the requested scopes present in the archived data whenever the
archived metric has more than one scope and at least one requested scope
is present, and otherwise is the archived per-scope map unchanged; in all
cases the trimming never synthesizes a scope absent from the archived
data. -/
theorem trimArchiveData_spec (jd : JobData) (ms : List String)
    (scopes : List MetricScope) (m : String) :
    (lookupA m (trimArchiveData jd (some ms) (some scopes)) =
      if m ∈ ms then (lookupA m jd).map (fun ps => trimPerScope ps scopes)
      else none) ∧
    (∀ ps, lookupA m jd = some ps → 1 < ps.length →
      0 < (scopeSubset ps scopes).length → ∀ sc,
        lookupA sc (trimPerScope ps scopes) =
          if sc ∈ scopes then lookupA sc ps else none) ∧
    (∀ ps sc jm, lookupA sc (trimPerScope ps scopes) = some jm →
      lookupA sc ps = some jm) := by
  refine ⟨trimArchiveData_lookup jd ms scopes m, ?_, ?_⟩
  · intro ps _ h1 h2 sc
    unfold trimPerScope
    simp only [if_pos h1, if_pos h2]
    exact scopeSubset_lookup ps scopes sc
  · intro ps sc jm h
    exact trimPerScope_lookup_sub ps scopes sc jm h

/-- Witness for Claim C4 (amended): a two-scope archived metric requested
at node scope only is trimmed to exactly the node record, and every
returned record occurs in the archived data. -/
theorem trimArchiveData_spec_witness :
    (lookupA MetricScope.node (trimPerScope psW4 [MetricScope.node]) =
      if MetricScope.node ∈ [MetricScope.node] then lookupA MetricScope.node psW4
      else none) ∧
    lookupA MetricScope.node psW4 = some jmW :=
  ⟨(trimArchiveData_spec jdW4 ["m"] [MetricScope.node] "m").2.1 psW4 rfl
      (by decide) (by decide) MetricScope.node,
   (trimArchiveData_spec jdW4 ["m"] [MetricScope.node] "m").2.2 psW4
      MetricScope.node jmW rfl⟩

/-! ## Start and the anti-duplicate guard (Claim C5) -/

theorem le_foldr_max (l : List Int) (b : Int) : b ≤ l.foldr max b := by
  induction l with
  | nil => exact le_refl b
  | cons x xs ih => exact le_trans ih (le_max_right x _)

theorem freshRowId_append_self (ids : List Int) :
    freshRowId ids < freshRowId (ids ++ [freshRowId ids]) := by
  unfold freshRowId
  rw [List.foldr_append]
  have h0 : (0 : Int) ≤ ids.foldr max 0 := le_foldr_max ids 0
  have h1 : List.foldr max 0 [ids.foldr max 0 + 1] = ids.foldr max 0 + 1 := by
    simp only [List.foldr]
    exact max_eq_left (by omega)
  rw [h1]
  have h2 := le_foldr_max ids (ids.foldr max 0 + 1)
  omega

theorem startJobHandler_accept (w : Nat) (db : List JobRow) (m : JobMeta)
    (h : ¬∃ r ∈ db, duplicateStart w m r) :
    startJobHandler w db m =
      (db ++ [startedRow m db], Except.ok (freshRowId (jobIds db))) := by
  unfold startJobHandler
  rw [if_neg h]
  rfl

/-- Claim C5: starting a job inserts a new row in state running and
returns its surrogate id; a start whose (job id, cluster) matches an
existing unfinished job with a start time inside the guard window fails
with the 422-equivalent conflict error, while two starts with the same
(job id, cluster) and start times at least the guard window apart both
succeed as distinct jobs. -/
theorem startJob_guard (w : Nat) (db : List JobRow) (m m2 : JobMeta) :
    ((∃ r ∈ db, duplicateStart w m r) →
      startJobHandler w db m = (db, Except.error ApiError.conflict422)) ∧
    ((¬∃ r ∈ db, duplicateStart w m r) →
      (¬∃ r ∈ db, duplicateStart w m2 r) →
      m2.jobId = m.jobId → m2.cluster = m.cluster →
      w ≤ (m2.startTime - m.startTime).natAbs →
      (startJobHandler w db m).2 = Except.ok (freshRowId (jobIds db)) ∧
      (startJobHandler w db m).1 = db ++ [startedRow m db] ∧
      (startJobHandler w (db ++ [startedRow m db]) m2).2 =
        Except.ok (freshRowId (jobIds (db ++ [startedRow m db]))) ∧
      (startJobHandler w (db ++ [startedRow m db]) m2).1 =
        db ++ [startedRow m db, startedRow m2 (db ++ [startedRow m db])] ∧
      freshRowId (jobIds db) ≠ freshRowId (jobIds (db ++ [startedRow m db])) ∧
      (startedRow m db).jobState = JobState.running ∧
      (startedRow m2 (db ++ [startedRow m db])).jobState = JobState.running) := by
  constructor
  · intro h
    unfold startJobHandler
    rw [if_pos h]
  · intro h1 h2 hj hc hw
    have hno2 : ¬∃ r ∈ db ++ [startedRow m db], duplicateStart w m2 r := by
      rintro ⟨r, hr, hd⟩
      rcases List.mem_append.mp hr with hmem | hmem
      · exact h2 ⟨r, hmem, hd⟩
      · have hreq : r = startedRow m db := by simpa using hmem
        subst hreq
        obtain ⟨-, -, -, ht⟩ := hd
        have hst : (startedRow m db).startTime = m.startTime := rfl
        rw [hst] at ht
        omega
    have e1 := startJobHandler_accept w db m h1
    have e2 := startJobHandler_accept w (db ++ [startedRow m db]) m2 hno2
    have hids : jobIds (db ++ [startedRow m db]) =
        jobIds db ++ [freshRowId (jobIds db)] := by
      unfold jobIds
      rw [List.map_append]
      rfl
    have hne : freshRowId (jobIds db) ≠
        freshRowId (jobIds (db ++ [startedRow m db])) := by
      rw [hids]
      exact ne_of_lt (freshRowId_append_self (jobIds db))
    refine ⟨?_, ?_, ?_, ?_, hne, rfl, rfl⟩
    · rw [e1]
    · rw [e1]
    · rw [e2]
    · rw [e2]
      simp

/-- Witness for Claim C5: with guard window 5 seconds, a second start one
second after a running job with the same (job id, cluster) is rejected as
a conflict, and two starts 101 seconds apart both succeed as distinct
rows in state running. -/
theorem startJob_guard_witness :
    startJobHandler 5 [{ newJobRow mW1 with id := 1 }] mW2 =
      ([{ newJobRow mW1 with id := 1 }], Except.error ApiError.conflict422) ∧
    (startJobHandler 5 [] mW1).2 = Except.ok (freshRowId (jobIds [])) ∧
    (startJobHandler 5 ([] ++ [startedRow mW1 []]) mW3).2 =
      Except.ok (freshRowId (jobIds ([] ++ [startedRow mW1 []]))) ∧
    freshRowId (jobIds []) ≠ freshRowId (jobIds ([] ++ [startedRow mW1 []])) ∧
    (startedRow mW1 []).jobState = JobState.running ∧
    (startedRow mW3 ([] ++ [startedRow mW1 []])).jobState = JobState.running := by
  have h := (startJob_guard 5 [] mW1 mW3).2 (by decide) (by decide) rfl rfl (by decide)
  exact ⟨(startJob_guard 5 [{ newJobRow mW1 with id := 1 }] mW2 mW3).1 (by decide),
    h.1, h.2.2.1, h.2.2.2.2.1, h.2.2.2.2.2.1, h.2.2.2.2.2.2⟩

/-! ## Archive column mapping (Claim C6) -/

theorem applyStat_id (r : JobRow) (m : String) (s : JobStatistics) :
    (applyStat r m s).id = r.id := by
  unfold applyStat
  split_ifs <;> rfl

theorem applyStat_jobState (r : JobRow) (m : String) (s : JobStatistics) :
    (applyStat r m s).jobState = r.jobState := by
  unfold applyStat
  split_ifs <;> rfl

theorem applyStat_duration (r : JobRow) (m : String) (s : JobStatistics) :
    (applyStat r m s).duration = r.duration := by
  unfold applyStat
  split_ifs <;> rfl

theorem applyStat_monitoringStatus (r : JobRow) (m : String) (s : JobStatistics) :
    (applyStat r m s).monitoringStatus = r.monitoringStatus := by
  unfold applyStat
  split_ifs <;> rfl

theorem applyStat_flops (r : JobRow) (m : String) (s : JobStatistics) :
    (applyStat r m s).flopsAnyAvg =
      if m = "flops_any" then s.avg else r.flopsAnyAvg := by
  unfold applyStat
  split_ifs <;> simp_all

theorem applyStat_memUsed (r : JobRow) (m : String) (s : JobStatistics) :
    (applyStat r m s).memUsedMax =
      if m = "mem_used" then s.max else r.memUsedMax := by
  unfold applyStat
  split_ifs <;> simp_all

theorem applyStat_memBw (r : JobRow) (m : String) (s : JobStatistics) :
    (applyStat r m s).memBwAvg =
      if m = "mem_bw" then s.avg else r.memBwAvg := by
  unfold applyStat
  split_ifs <;> simp_all

theorem applyStat_load (r : JobRow) (m : String) (s : JobStatistics) :
    (applyStat r m s).loadAvg =
      if m = "load" then s.avg else r.loadAvg := by
  unfold applyStat
  split_ifs <;> simp_all

theorem applyStat_netBw (r : JobRow) (m : String) (s : JobStatistics) :
    (applyStat r m s).netBwAvg =
      if m = "net_bw" then s.avg else r.netBwAvg := by
  unfold applyStat
  split_ifs <;> simp_all

theorem applyStat_fileBw (r : JobRow) (m : String) (s : JobStatistics) :
    (applyStat r m s).fileBwAvg =
      if m = "file_bw" then s.avg else r.fileBwAvg := by
  unfold applyStat
  split_ifs <;> simp_all

theorem lookupA_eq_none_of_not_mem {α β : Type} [DecidableEq α] {k : α}
    {l : List (α × β)} (h : k ∉ l.map Prod.fst) : lookupA k l = none := by
  induction l with
  | nil => rfl
  | cons hd tl ih =>
    obtain ⟨k', v⟩ := hd
    simp only [List.map_cons, List.mem_cons] at h
    push_neg at h
    have h1 : ¬k' = k := fun he => h.1 he.symm
    simp [lookupA, h1, ih h.2]

theorem foldl_applyStat_pres {γ : Type} (f : JobRow → γ)
    (hf : ∀ r metric s, f (applyStat r metric s) = f r)
    (stats : List (String × JobStatistics)) (r0 : JobRow) :
    f (stats.foldl (fun r p => applyStat r p.1 p.2) r0) = f r0 := by
  induction stats generalizing r0 with
  | nil => rfl
  | cons p tl ih => simp [List.foldl_cons, ih, hf]

theorem foldl_applyStat_field {γ : Type} (f : JobRow → γ) (key : String)
    (g : JobStatistics → γ)
    (hpres : ∀ r metric s, metric ≠ key → f (applyStat r metric s) = f r)
    (hset : ∀ r s, f (applyStat r key s) = g s)
    (stats : List (String × JobStatistics)) (r0 : JobRow)
    (hnd : (stats.map Prod.fst).Nodup) :
    f (stats.foldl (fun r p => applyStat r p.1 p.2) r0) =
      ((lookupA key stats).map g).getD (f r0) := by
  induction stats generalizing r0 with
  | nil => simp [lookupA]
  | cons p tl ih =>
    obtain ⟨m, s⟩ := p
    simp only [List.map_cons, List.nodup_cons] at hnd
    obtain ⟨hm, hnd2⟩ := hnd
    by_cases hk : m = key
    · subst hk
      have hnone : lookupA m tl = none := lookupA_eq_none_of_not_mem hm
      simp [List.foldl_cons, lookupA, ih _ hnd2, hnone, hset]
    · simp [List.foldl_cons, lookupA, hk, ih _ hnd2, hpres _ _ _ hk]

/-- Claim C6: Archive never fails on unknown metric names, always sets the
job's monitoring_status, and sets exactly the six mapped aggregate columns
from the entries present in the per-metric statistics (flops_any_avg,
mem_bw_avg, load_avg, net_bw_avg, file_bw_avg from Avg, mem_used_max from
the Max of "mem_used"); all other metric names are silently ignored and
every other column and row is untouched. -/
theorem archive_columns (db : List JobRow) (jobId : Int) (ms : Nat)
    (stats : List (String × JobStatistics)) (r : JobRow)
    (hnd : (stats.map Prod.fst).Nodup) (hr : r.id = jobId) :
    (Archive db jobId ms stats).2 = Except.ok () ∧
    (Archive db jobId ms stats).1 = db.map (archiveRow jobId ms stats) ∧
    (∀ r2 : JobRow, r2.id ≠ jobId → archiveRow jobId ms stats r2 = r2) ∧
    (archiveRow jobId ms stats r).monitoringStatus = ms ∧
    (archiveRow jobId ms stats r).flopsAnyAvg =
      ((lookupA "flops_any" stats).map JobStatistics.avg).getD r.flopsAnyAvg ∧
    (archiveRow jobId ms stats r).memUsedMax =
      ((lookupA "mem_used" stats).map JobStatistics.max).getD r.memUsedMax ∧
    (archiveRow jobId ms stats r).memBwAvg =
      ((lookupA "mem_bw" stats).map JobStatistics.avg).getD r.memBwAvg ∧
    (archiveRow jobId ms stats r).loadAvg =
      ((lookupA "load" stats).map JobStatistics.avg).getD r.loadAvg ∧
    (archiveRow jobId ms stats r).netBwAvg =
      ((lookupA "net_bw" stats).map JobStatistics.avg).getD r.netBwAvg ∧
    (archiveRow jobId ms stats r).fileBwAvg =
      ((lookupA "file_bw" stats).map JobStatistics.avg).getD r.fileBwAvg ∧
    (archiveRow jobId ms stats r).id = r.id ∧
    (archiveRow jobId ms stats r).jobState = r.jobState ∧
    (archiveRow jobId ms stats r).duration = r.duration := by
  have hrow : archiveRow jobId ms stats r =
      stats.foldl (fun r p => applyStat r p.1 p.2) { r with monitoringStatus := ms } := by
    unfold archiveRow
    rw [if_pos hr]
  refine ⟨rfl, rfl, ?_, ?_, ?_, ?_, ?_, ?_, ?_, ?_, ?_, ?_, ?_⟩
  · intro r2 h2
    unfold archiveRow
    rw [if_neg h2]
  · rw [hrow]
    exact foldl_applyStat_pres _ applyStat_monitoringStatus stats _
  · rw [hrow]
    exact foldl_applyStat_field _ "flops_any" JobStatistics.avg
      (fun r m s hm => by rw [applyStat_flops]; exact if_neg hm)
      (fun r s => by rw [applyStat_flops]; exact if_pos rfl) stats _ hnd
  · rw [hrow]
    exact foldl_applyStat_field _ "mem_used" JobStatistics.max
      (fun r m s hm => by rw [applyStat_memUsed]; exact if_neg hm)
      (fun r s => by rw [applyStat_memUsed]; exact if_pos rfl) stats _ hnd
  · rw [hrow]
    exact foldl_applyStat_field _ "mem_bw" JobStatistics.avg
      (fun r m s hm => by rw [applyStat_memBw]; exact if_neg hm)
      (fun r s => by rw [applyStat_memBw]; exact if_pos rfl) stats _ hnd
  · rw [hrow]
    exact foldl_applyStat_field _ "load" JobStatistics.avg
      (fun r m s hm => by rw [applyStat_load]; exact if_neg hm)
      (fun r s => by rw [applyStat_load]; exact if_pos rfl) stats _ hnd
  · rw [hrow]
    exact foldl_applyStat_field _ "net_bw" JobStatistics.avg
      (fun r m s hm => by rw [applyStat_netBw]; exact if_neg hm)
      (fun r s => by rw [applyStat_netBw]; exact if_pos rfl) stats _ hnd
  · rw [hrow]
    exact foldl_applyStat_field _ "file_bw" JobStatistics.avg
      (fun r m s hm => by rw [applyStat_fileBw]; exact if_neg hm)
      (fun r s => by rw [applyStat_fileBw]; exact if_pos rfl) stats _ hnd
  · rw [hrow]
    exact foldl_applyStat_pres _ applyStat_id stats _
  · rw [hrow]
    exact foldl_applyStat_pres _ applyStat_jobState stats _
  · rw [hrow]
    exact foldl_applyStat_pres _ applyStat_duration stats _

/-- Witness for Claim C6: a statistics map with flops_any, mem_used and
the unmapped name cpu_power; Archive succeeds, sets monitoring status,
flops_any_avg and mem_used_max, and leaves the unmapped columns alone. -/
theorem archive_columns_witness :
    (Archive [rowW] 7 MonitoringStatusArchivingSuccessful statsW).2 = Except.ok () ∧
    (archiveRow 7 MonitoringStatusArchivingSuccessful statsW rowW).monitoringStatus =
      MonitoringStatusArchivingSuccessful ∧
    (archiveRow 7 MonitoringStatusArchivingSuccessful statsW rowW).flopsAnyAvg = 10 ∧
    (archiveRow 7 MonitoringStatusArchivingSuccessful statsW rowW).memUsedMax = 3 ∧
    (archiveRow 7 MonitoringStatusArchivingSuccessful statsW rowW).loadAvg =
      rowW.loadAvg := by
  obtain ⟨h1, -, -, hms, hf, hmu, -, hl, -, -, -, -, -⟩ :=
    archive_columns [rowW] 7 MonitoringStatusArchivingSuccessful statsW rowW
      (by decide) rfl
  refine ⟨h1, hms, ?_, ?_, ?_⟩
  · rw [hf]
    rfl
  · rw [hmu]
    rfl
  · rw [hl]
    rfl

/-! ## Derived statistics series in prepareJobData (Claim C7) -/

theorem attachStats_lookup (jd : JobData) (m : String) (sc : MetricScope) :
    (lookupA m (attachStats jd)).bind (lookupA sc) =
      ((lookupA m jd).bind (lookupA sc)).map attachStatsMetric := by
  unfold attachStats
  rw [lookupA_mapVals]
  cases h : lookupA m jd with
  | none => rfl
  | some ps => simp [lookupA_mapVals]

theorem addNodeScope_preserves (jd : JobData) (m' m : String) (sc : MetricScope)
    (jm : JobMetric) (h : (lookupA m jd).bind (lookupA sc) = some jm) :
    (lookupA m (addNodeScope jd m')).bind (lookupA sc) = some jm := by
  unfold addNodeScope
  cases hps : lookupA m' jd with
  | none => exact h
  | some ps =>
    by_cases hnode : (lookupA MetricScope.node ps).isSome
    · simpa [hnode] using h
    · simp only [hnode, Bool.false_eq_true, if_false]
      cases ps with
      | nil => exact h
      | cons p rest =>
        by_cases hm : m' = m
        · subst hm
          rw [lookupA_updateA_eq]
          rw [hps] at h ⊢
          simp only [Option.map_some', Option.some_bind] at h ⊢
          exact lookupA_append_some h
        · rw [lookupA_updateA_ne _ _ (fun he => hm he.symm)]
          exact h

/-- Claim C7: in prepareJobData, a metric record that already carries a
statistics series or has at most 15 series is left unchanged, and a record
with more than 15 series and no statistics series gets the derived
per-timestep min/avg/max statistics series attached. -/
theorem prepare_stats (jd : JobData) (scopes : List MetricScope) (m : String)
    (sc : MetricScope) (jm : JobMetric)
    (h : (lookupA m jd).bind (lookupA sc) = some jm) :
    ((jm.statisticsSeries.isSome ∨ jm.series.length ≤ maxSeriesSize) →
      (lookupA m (prepareJobData jd scopes)).bind (lookupA sc) = some jm) ∧
    (jm.statisticsSeries = none → maxSeriesSize < jm.series.length →
      (lookupA m (prepareJobData jd scopes)).bind (lookupA sc) =
        some { jm with statisticsSeries := some (statsSeriesOf jm.series) }) := by
  have h1 : (lookupA m (attachStats jd)).bind (lookupA sc) =
      some (attachStatsMetric jm) := by
    rw [attachStats_lookup, h]
    rfl
  have h2 : (lookupA m (prepareJobData jd scopes)).bind (lookupA sc) =
      some (attachStatsMetric jm) := by
    unfold prepareJobData
    by_cases hn : MetricScope.node ∈ scopes
    · simp only [if_pos hn]
      exact addNodeScope_preserves _ _ _ _ _ (addNodeScope_preserves _ _ _ _ _ h1)
    · simpa [hn] using h1
  constructor
  · intro hc
    rw [h2]
    unfold attachStatsMetric
    rw [if_pos hc]
  · intro hs hlen
    rw [h2]
    unfold attachStatsMetric
    rw [if_neg ?_]
    push_neg
    exact ⟨by rw [hs]; exact Option.isSome_none ▸ Bool.false_ne_true, by omega⟩

/-- Witness for Claim C7: a record with 16 one-sample series and no
statistics series gets the derived statistics series attached by
prepareJobData. -/
theorem prepare_stats_witness :
    (lookupA "load_one" (prepareJobData jd16 [MetricScope.node])).bind
      (lookupA MetricScope.node) =
      some { jm16 with statisticsSeries := some (statsSeriesOf jm16.series) } :=
  (prepare_stats jd16 [MetricScope.node] "load_one" MetricScope.node jm16 rfl).2
    rfl (by decide)

/-! ## Tag idempotence (Claim C8) -/

theorem AddTag_tags (db : TagDB) (j t : Int) : (AddTag db j t).1.tags = db.tags := by
  unfold AddTag
  split <;> rfl

theorem addTagOrCreate_found (db : TagDB) (j : Int) (ty n : String) (tid : Int)
    (h : TagId db ty n = some tid) :
    AddTagOrCreate db j ty n =
      ((AddTag db j tid).1, tid, errOf (AddTag db j tid).2) := by
  unfold AddTagOrCreate
  rw [h]

theorem find?_append_none {α : Type} (p : α → Bool) {l1 : List α} (l2 : List α)
    (h : l1.find? p = none) : (l1 ++ l2).find? p = l2.find? p := by
  induction l1 with
  | nil => rfl
  | cons a tl ih =>
    cases hpa : p a with
    | true => simp [List.find?_cons_of_pos _ hpa] at h
    | false =>
      rw [List.find?_cons_of_neg _ (by simp [hpa])] at h
      rw [List.cons_append, List.find?_cons_of_neg _ (by simp [hpa])]
      exact ih h

theorem CreateTag_not_exists (db : TagDB) (ty n : String)
    (h : TagId db ty n = none) :
    CreateTag db ty n =
      ({ db with tags := db.tags ++ [(freshRowId (db.tags.map (fun t => t.1)), ty, n)] },
        Except.ok (freshRowId (db.tags.map (fun t => t.1)))) := by
  have hf : db.tags.find? (fun t => t.2.1 == ty && t.2.2 == n) = none := by
    unfold TagId at h
    exact Option.map_eq_none'.mp h
  have hany : db.tags.any (fun t => t.2.1 == ty && t.2.2 == n) = false := by
    rw [← Bool.not_eq_true, List.any_eq_true]
    push_neg
    intro x hx
    have := List.find?_eq_none.mp hf x hx
    simpa using this
  unfold CreateTag
  rw [hany]
  simp

/-- Claim C8: AddTagOrCreate called twice in sequence with the same
(type, name) pair returns the same tag id both times, the second call
inserts no tag row, and the tag table afterwards holds max(previous
count, 1) rows for the pair — at most one created. -/
theorem addTagOrCreate_idem (db : TagDB) (j1 j2 : Int) (ty n : String) :
    (AddTagOrCreate db j1 ty n).2.1 =
      (AddTagOrCreate (AddTagOrCreate db j1 ty n).1 j2 ty n).2.1 ∧
    (AddTagOrCreate (AddTagOrCreate db j1 ty n).1 j2 ty n).1.tags =
      (AddTagOrCreate db j1 ty n).1.tags ∧
    countTag (AddTagOrCreate (AddTagOrCreate db j1 ty n).1 j2 ty n).1 ty n =
      max (countTag db ty n) 1 := by
  cases hf : db.tags.find? (fun t => t.2.1 == ty && t.2.2 == n) with
  | some tag =>
    have htid : TagId db ty n = some tag.1 := by
      unfold TagId
      rw [hf]
      rfl
    have e1 := addTagOrCreate_found db j1 ty n tag.1 htid
    have ht1 : (AddTag db j1 tag.1).1.tags = db.tags := AddTag_tags db j1 tag.1
    have htid2 : TagId (AddTag db j1 tag.1).1 ty n = some tag.1 := by
      unfold TagId
      rw [ht1, hf]
      rfl
    have e2 := addTagOrCreate_found (AddTag db j1 tag.1).1 j2 ty n tag.1 htid2
    have hcnt : 1 ≤ countTag db ty n := by
      unfold countTag
      have hmem := List.mem_of_find?_eq_some hf
      have hp := List.find?_some hf
      exact List.countP_pos_iff.mpr ⟨tag, hmem, hp⟩
    rw [e1]
    dsimp only
    rw [e2]
    refine ⟨rfl, AddTag_tags _ _ _, ?_⟩
    dsimp only
    unfold countTag
    rw [AddTag_tags, ht1]
    exact (max_eq_left hcnt).symm
  | none =>
    have htid : TagId db ty n = none := by
      unfold TagId
      rw [hf]
      rfl
    have ec := CreateTag_not_exists db ty n htid
    have e1 : AddTagOrCreate db j1 ty n =
        ((AddTag { db with tags := db.tags ++
            [(freshRowId (db.tags.map (fun t => t.1)), ty, n)] } j1
            (freshRowId (db.tags.map (fun t => t.1)))).1,
          freshRowId (db.tags.map (fun t => t.1)),
          errOf (AddTag { db with tags := db.tags ++
            [(freshRowId (db.tags.map (fun t => t.1)), ty, n)] } j1
            (freshRowId (db.tags.map (fun t => t.1)))).2) := by
      unfold AddTagOrCreate
      rw [htid, ec]
    have ht1 : (AddTag { db with tags := db.tags ++
        [(freshRowId (db.tags.map (fun t => t.1)), ty, n)] } j1
        (freshRowId (db.tags.map (fun t => t.1)))).1.tags =
        db.tags ++ [(freshRowId (db.tags.map (fun t => t.1)), ty, n)] :=
      AddTag_tags _ _ _
    have hpnew : (fun t : Int × String × String => t.2.1 == ty && t.2.2 == n)
        (freshRowId (db.tags.map (fun t => t.1)), ty, n) = true := by simp
    have htid2 : TagId (AddTag { db with tags := db.tags ++
        [(freshRowId (db.tags.map (fun t => t.1)), ty, n)] } j1
        (freshRowId (db.tags.map (fun t => t.1)))).1 ty n =
        some (freshRowId (db.tags.map (fun t => t.1))) := by
      unfold TagId
      rw [ht1, find?_append_none _ _ hf]
      simp
    have e2 := addTagOrCreate_found _ j2 ty n _ htid2
    have hzero : countTag db ty n = 0 := by
      unfold countTag
      rw [List.countP_eq_zero]
      intro x hx
      exact List.find?_eq_none.mp hf x hx
    rw [e1]
    dsimp only
    rw [e2]
    refine ⟨rfl, AddTag_tags _ _ _, ?_⟩
    dsimp only
    unfold countTag
    unfold countTag at hzero
    rw [AddTag_tags, ht1, List.countP_append, hzero]
    simp [List.countP_cons, hpnew]

/-! ## Bulk import (Claims C9 and C10) -/

theorem loadJobModel_evs (st : WalkState) (j : ImportedJob) :
    (loadJobModel st j).evs = st.evs ++ [DBEvent.insertJob j] := rfl

theorem loadJobModel_i (st : WalkState) (j : ImportedJob) :
    (loadJobModel st j).i = st.i + 1 := rfl

theorem handleDirectory_i (st : WalkState) (d : DirOutcome) :
    (handleDirectory st d).i = st.i + (if d.isOk then 1 else 0) := by
  unfold handleDirectory
  cases d with
  | ok j =>
    by_cases h : st.i % 100 = 0 <;> simp [h, loadJobModel_i, DirOutcome.isOk]
  | failed msg =>
    by_cases h : st.i % 100 = 0 <;> simp [h, DirOutcome.isOk]

theorem handleDirectory_count (p : DBEvent → Bool) (st : WalkState) (d : DirOutcome)
    (hc : p DBEvent.commitTx = false) (hb : p DBEvent.beginTx = false) :
    (handleDirectory st d).evs.countP p =
      st.evs.countP p + (match d with
        | DirOutcome.ok j => if p (DBEvent.insertJob j) then 1 else 0
        | DirOutcome.failed m => if p (DBEvent.logError m) then 1 else 0) := by
  unfold handleDirectory
  cases d with
  | ok j =>
    by_cases h : st.i % 100 = 0 <;>
      simp [h, loadJobModel_evs, List.countP_append, List.countP_cons, hc, hb]
  | failed m =>
    by_cases h : st.i % 100 = 0 <;>
      simp [h, List.countP_append, List.countP_cons, hc, hb]

theorem handleDirectory_noCreate (st : WalkState) (d : DirOutcome)
    (h : DBEvent.createIndexes ∉ st.evs) :
    DBEvent.createIndexes ∉ (handleDirectory st d).evs := by
  unfold handleDirectory
  cases d with
  | ok j => by_cases hc : st.i % 100 = 0 <;> simp_all [loadJobModel_evs]
  | failed m => by_cases hc : st.i % 100 = 0 <;> simp_all

theorem walk_fold (dirs : List DirOutcome) (st : WalkState) :
    (dirs.foldl handleDirectory st).i = st.i + dirs.countP DirOutcome.isOk ∧
    (dirs.foldl handleDirectory st).evs.countP DBEvent.isInsert =
      st.evs.countP DBEvent.isInsert + dirs.countP DirOutcome.isOk ∧
    (dirs.foldl handleDirectory st).evs.countP DBEvent.isLogError =
      st.evs.countP DBEvent.isLogError + dirs.countP (fun d => !d.isOk) ∧
    (DBEvent.createIndexes ∉ st.evs →
      DBEvent.createIndexes ∉ (dirs.foldl handleDirectory st).evs) := by
  induction dirs generalizing st with
  | nil => simp
  | cons d tl ih =>
    obtain ⟨ih1, ih2, ih3, ih4⟩ := ih (handleDirectory st d)
    refine ⟨?_, ?_, ?_, ?_⟩
    · rw [List.foldl_cons, ih1, handleDirectory_i]
      cases d <;> (simp [DirOutcome.isOk, List.countP_cons]; try omega)
    · rw [List.foldl_cons, ih2, handleDirectory_count _ _ _ rfl rfl]
      cases d <;>
        (simp [DirOutcome.isOk, DBEvent.isInsert, List.countP_cons]; try omega)
    · rw [List.foldl_cons, ih3, handleDirectory_count _ _ _ rfl rfl]
      cases d <;>
        (simp [DirOutcome.isOk, DBEvent.isLogError, List.countP_cons]; try omega)
    · intro h
      rw [List.foldl_cons]
      exact ih4 (handleDirectory_noCreate st d h)

theorem InitDB_some (db : ImportDB) (dirs : List DirOutcome) :
    InitDB db (some dirs) =
      ((dirs.foldl handleDirectory walkInit).db,
        (dirs.foldl handleDirectory walkInit).evs ++
          [DBEvent.commitTx, DBEvent.createIndexes],
        Except.ok (dirs.foldl handleDirectory walkInit).i) := rfl

/-- Claim C9: during bulk import over a sequence of job directories, every
failing directory produces exactly one logged error and no insert while
the walk continues (the result counts exactly the successfully parsed
directories and inserts exactly those), the final transaction commit is
still emitted, and the index creation is the last database action, after
every insertion and after the final commit. -/
theorem initdb_walk (db : ImportDB) (dirs : List DirOutcome) :
    (InitDB db (some dirs)).2.2 = Except.ok (dirs.countP DirOutcome.isOk) ∧
    (InitDB db (some dirs)).2.1.countP DBEvent.isInsert =
      dirs.countP DirOutcome.isOk ∧
    (InitDB db (some dirs)).2.1.countP DBEvent.isLogError =
      dirs.countP (fun d => !d.isOk) ∧
    ∃ pre, (InitDB db (some dirs)).2.1 =
        pre ++ [DBEvent.commitTx, DBEvent.createIndexes] ∧
      DBEvent.createIndexes ∉ pre := by
  obtain ⟨h1, h2, h3, h4⟩ := walk_fold dirs walkInit
  rw [InitDB_some]
  refine ⟨?_, ?_, ?_,
    ⟨(dirs.foldl handleDirectory walkInit).evs, rfl, h4 (by decide)⟩⟩
  · rw [h1]
    simp [walkInit]
  · rw [List.countP_append, h2]
    simp [walkInit, List.countP_cons, DBEvent.isInsert]
  · rw [List.countP_append, h3]
    simp [walkInit, List.countP_cons, DBEvent.isLogError]

/-- Claim C10: InitDB executes the DROP-and-recreate schema before
importing anything, so its resulting tables are entirely independent of
whatever jobs, tags and job-tag associations were stored before the call;
when the archive walk fails immediately or imports nothing, the tables
are left empty — the previous contents are lost in every case. -/
theorem initdb_drops (db1 db2 : ImportDB) (archive : Option (List DirOutcome)) :
    (InitDB db1 archive).1 = (InitDB db2 archive).1 ∧
    (InitDB db1 none).1 = emptyImportDB ∧
    (InitDB db1 (some [])).1 = emptyImportDB := by
  refine ⟨?_, rfl, rfl⟩
  cases archive <;> rfl

end CCBackend
